import Mathlib

/-!
Shallow embedding of the core of `excel-data-hub` (`src/excel_processor_sea.rs`):
the search/ranking engine (`search_data`), the import pipeline
(`process_single_file`, `insert_excel_data`, `batch_import_excel_files_with_options`),
change detection (`is_file_changed`), cell type coercion (`read_excel_file`),
directory scanning (`scan_excel_files_recursive`) and sheet-name sanitization
(`sanitize_sheet_name`), together with theorems settling the frozen claims.

Rust strings are modelled as lists of characters (`Str`); Rust `str::contains`
is substring containment, which for valid UTF-8 needles coincides with
character-sequence containment (UTF-8 is self-synchronizing), modelled by
`List.IsInfix`.
-/

namespace ExcelHub

abbrev Str := List Char

/-- Rust `str::trim`: drop leading and trailing whitespace. -/
def strTrim (s : Str) : Str :=
  ((s.dropWhile Char.isWhitespace).reverse.dropWhile Char.isWhitespace).reverse

/-- Helper for `split_whitespace`: `acc` holds the current token reversed. -/
def splitWsGo : Str → Str → List Str
  | [], acc => if acc.isEmpty then [] else [acc.reverse]
  | c :: cs, acc =>
    if c.isWhitespace then
      if acc.isEmpty then splitWsGo cs [] else acc.reverse :: splitWsGo cs []
    else splitWsGo cs (c :: acc)

/-- Rust `str::split_whitespace`: whitespace-separated tokens, no empty tokens. -/
def split_whitespace (s : Str) : List Str := splitWsGo s []

/-- Rust `str::contains(pat)`: `pat` occurs as a substring of `hay`. -/
def containsSub (hay pat : Str) : Bool := decide (pat <:+: hay)

/-! ## Search engine model (`search_data`, lines 623-718) -/

/-- One stored `excel_data` row as far as search is concerned:
`search_text` is the stored blob matched against, `import_time` the import
timestamp used for tie-breaking (modelled as an integer timestamp). -/
structure SRow where
  id : Nat
  file_id : Nat
  import_time : Int
  search_text : Str
deriving DecidableEq, Repr

/-- Keyword extraction of `search_data`:
`query_text.trim().split_whitespace().filter(|k| !k.is_empty())`. -/
def keywordsOf (q : Str) : List Str :=
  (split_whitespace (strTrim q)).filter (fun k => !k.isEmpty)

/-- The SQL condition built with `Condition::any()`: a row is fetched when at
least one keyword is contained in its `search_text`. -/
def rowMatches (keywords : List Str) (r : SRow) : Bool :=
  keywords.any (fun k => containsSub r.search_text k)

/-- The per-row relevance score loop of `search_data` (lines 662-674):
one point per keyword occurrence contained in `search_text`, plus
`keywords.len()` bonus points when the untrimmed original query is contained. -/
def score_row (q : Str) (keywords : List Str) (t : Str) : Nat :=
  let base := keywords.foldl (fun s k => if containsSub t k then s + 1 else s) 0
  if containsSub t q then base + keywords.length else base

/-- The sort order of `scored_results.sort_by` (lines 681-686): score
descending, ties by import time descending.  `a` may precede `b` exactly when
the Rust comparator does not return `Greater` on `(a, b)`. -/
def score_le (a b : SRow × Nat) : Prop :=
  b.2 < a.2 ∨ (a.2 = b.2 ∧ b.1.import_time ≤ a.1.import_time)

instance : DecidableRel score_le := fun a b => by
  unfold score_le; infer_instance

instance : IsTotal (SRow × Nat) score_le where
  total a b := by
    unfold score_le
    rcases Nat.lt_trichotomy a.2 b.2 with h | h | h
    · exact Or.inr (Or.inl h)
    · rcases Int.le_total a.1.import_time b.1.import_time with ht | ht
      · exact Or.inr (Or.inr ⟨h.symm, ht⟩)
      · exact Or.inl (Or.inr ⟨h, ht⟩)
    · exact Or.inl (Or.inl h)

instance : IsTrans (SRow × Nat) score_le where
  trans a b c hab hbc := by
    unfold score_le at *
    rcases hab with h1 | ⟨h1, t1⟩ <;> rcases hbc with h2 | ⟨h2, t2⟩
    · exact Or.inl (h2.trans h1)
    · exact Or.inl (h2 ▸ h1)
    · exact Or.inl (h1 ▸ h2)
    · exact Or.inr ⟨h1.trans h2, t2.trans t1⟩

/-- Rust `sort_by` is a stable sort; with the same total preorder a stable
sort's output is unique, so `List.insertionSort` (also stable) models it. -/
def sortScored (l : List (SRow × Nat)) : List (SRow × Nat) :=
  l.insertionSort score_le

/-- Model of `SearchResponse` (models/mod.rs): paged results plus the total match
count, limit and offset echoed back. -/
structure SearchResponse where
  results : List SRow
  total : Nat
  limit : Nat
  offset : Nat
deriving DecidableEq, Repr

/-- The rows fetched by the `Condition::any()` filter, in store order. -/
def matched_rows (db : List SRow) (q : Str) : List SRow :=
  db.filter (rowMatches (keywordsOf q))

/-- The fully scored and sorted match list (before pagination). -/
def sorted_matches (db : List SRow) (q : Str) : List (SRow × Nat) :=
  sortScored ((matched_rows db q).map (fun r => (r, score_row q (keywordsOf q) r.search_text)))

/-- Model of `search_data` (lines 623-718): tokenize the query; empty keyword list
yields the empty response with total 0; otherwise filter by the ANY-keyword
condition, count the matches (the separate `count` query uses the same
condition), score, sort, then `skip(offset).take(limit)`. -/
def search_data (db : List SRow) (q : Str) (limit offset : Nat) : SearchResponse :=
  if (keywordsOf q).isEmpty then
    { results := [], total := 0, limit := limit, offset := offset }
  else
    { results := (((sorted_matches db q).drop offset).take limit).map Prod.fst,
      total := (matched_rows db q).length, limit := limit, offset := offset }

/-! ## The §8 two-row scenario dataset -/

/-- Row 1 of the §8 scenario: data `{Name:"Alice", ID:"0012345"}`, so its
search text is the space-join of the stringified values. -/
def row1 : SRow := { id := 1, file_id := 1, import_time := 1, search_text := "Alice 0012345".toList }

/-- Row 2 of the §8 scenario: data `{Name:"Bob", ID:67}`. -/
def row2 : SRow := { id := 2, file_id := 1, import_time := 2, search_text := "Bob 67".toList }

/-- The §8 two-row dataset. -/
def exampleDb : List SRow := [row1, row2]

example : containsSub "Alice 0012345".toList "Alice".toList = true := by decide
example : keywordsOf "Alice Bob".toList = ["Alice".toList, "Bob".toList] := by decide
example : (search_data exampleDb "Alice".toList 50 0).results = [row1] := by decide
example : (search_data exampleDb "Alice Bob".toList 50 0).results = [row2, row1] := by decide

/-! ## Search lemmas -/

/-- Any row appearing in a returned page was fetched by the match condition. -/
theorem mem_results_mem_matched {db : List SRow} {q : Str} {limit offset : Nat} {r : SRow}
    (hr : r ∈ (search_data db q limit offset).results) : r ∈ matched_rows db q := by
  unfold search_data at hr
  split at hr
  · simp at hr
  · simp only [] at hr
    obtain ⟨x, hx, rfl⟩ := List.mem_map.mp hr
    have hx2 : x ∈ sorted_matches db q :=
      (List.drop_subset _ _) ((List.take_subset _ _) hx)
    have hperm := List.perm_insertionSort score_le
      ((matched_rows db q).map (fun r => (r, score_row q (keywordsOf q) r.search_text)))
    have hx3 := hperm.mem_iff.mp hx2
    obtain ⟨y, hy, hyx⟩ := List.mem_map.mp hx3
    cases hyx
    exact hy

/-- Every element of the sorted scored list carries the score of its row. -/
theorem snd_eq_score_of_mem_sorted {db : List SRow} {q : Str} {x : SRow × Nat}
    (hx : x ∈ sorted_matches db q) :
    x.2 = score_row q (keywordsOf q) x.1.search_text := by
  have hperm := List.perm_insertionSort score_le
    ((matched_rows db q).map (fun r => (r, score_row q (keywordsOf q) r.search_text)))
  have hx3 := hperm.mem_iff.mp hx
  obtain ⟨y, _, rfl⟩ := List.mem_map.mp hx3
  rfl

/-- Claim C2 is false on the code: the search condition is built with
`Condition::any()` (OR of the per-keyword containment filters), so on the §8
dataset the query "Alice Bob" returns both rows, not zero rows. -/
theorem c2_counterexample :
    (search_data exampleDb "Alice Bob".toList 50 0).results = [row2, row1] ∧
    (search_data exampleDb "Alice Bob".toList 50 0).results ≠ [] := by decide

/-- Claim C2 amended: search uses ANY-keyword matching — every returned row
contains at least one query keyword as a substring of its search text; on the
§8 dataset, "Alice" returns exactly row1 with score at least 1, and
"Alice Bob" returns both rows (row2 first on the import-time tie-break). -/
theorem c2_any_keyword_semantics :
    (∀ (db : List SRow) (q : Str) (limit offset : Nat) (r : SRow),
        r ∈ (search_data db q limit offset).results →
        ∃ k ∈ keywordsOf q, containsSub r.search_text k = true) ∧
    (search_data exampleDb "Alice".toList 50 0).results = [row1] ∧
    1 ≤ score_row "Alice".toList (keywordsOf "Alice".toList) row1.search_text ∧
    (search_data exampleDb "Alice Bob".toList 50 0).results = [row2, row1] := by
  refine ⟨?_, by decide, by decide, by decide⟩
  intro db q limit offset r hr
  have h1 := mem_results_mem_matched hr
  have h2 := (List.mem_filter.mp h1).2
  simpa [rowMatches, List.any_eq_true] using h2

/-- Witness: the ANY-semantics membership fact applied to row2 returned for
the query "Alice Bob". -/
theorem c2_any_keyword_semantics_witness :
    ∃ k ∈ keywordsOf "Alice Bob".toList, containsSub row2.search_text k = true :=
  c2_any_keyword_semantics.1 exampleDb "Alice Bob".toList 50 0 row2 (by decide)

/-! ## Relevance scoring (claim C3) -/

/-- Modelled from the spec's words (claim C3): score = count of **distinct**
keywords found as substrings, plus a bonus of the keyword count when the whole
query occurs verbatim.  Compared against the code's `score_row`. -/
def spec_relevance_score (q : Str) (t : Str) : Nat :=
  ((keywordsOf q).dedup.countP (fun k => containsSub t k)) +
    (if containsSub t q then (keywordsOf q).length else 0)

/-- The scoring fold counts matching keyword occurrences. -/
theorem score_foldl_eq_countP (t : Str) (l : List Str) :
    ∀ n : Nat, l.foldl (fun s k => if containsSub t k then s + 1 else s) n =
      n + l.countP (fun k => containsSub t k) := by
  induction l with
  | nil => intro n; simp
  | cons k ks ih =>
    intro n
    rw [List.foldl_cons, ih, List.countP_cons]
    by_cases h : containsSub t k
    · simp [h]; omega
    · simp [h]

/-- Claim C3 is false on the code: scoring iterates over keyword tokens with
multiplicity, so the duplicate-keyword query "Alice Alice" scores row1 (a
matching row) 2, while the distinct-keyword count of the claim gives 1. -/
theorem c3_counterexample :
    rowMatches (keywordsOf "Alice Alice".toList) row1 = true ∧
    score_row "Alice Alice".toList (keywordsOf "Alice Alice".toList) row1.search_text = 2 ∧
    spec_relevance_score "Alice Alice".toList row1.search_text = 1 := by decide

/-- Claim C3 amended: the relevance score equals the number of keyword
**tokens** (with multiplicity, as produced by whitespace splitting) contained
in the search text, plus a bonus of the token count when the full original
query is contained; when the token list has no duplicates this coincides with
the spec's distinct-keyword count. -/
theorem c3_score_counts_tokens :
    (∀ q t : Str, score_row q (keywordsOf q) t =
        (keywordsOf q).countP (fun k => containsSub t k) +
          (if containsSub t q then (keywordsOf q).length else 0)) ∧
    (∀ q t : Str, (keywordsOf q).Nodup →
        score_row q (keywordsOf q) t = spec_relevance_score q t) := by
  have hbase : ∀ q t : Str, score_row q (keywordsOf q) t =
      (keywordsOf q).countP (fun k => containsSub t k) +
        (if containsSub t q then (keywordsOf q).length else 0) := by
    intro q t
    unfold score_row
    rw [score_foldl_eq_countP]
    by_cases h : containsSub t q <;> simp [h]
  refine ⟨hbase, ?_⟩
  intro q t hnd
  rw [hbase, spec_relevance_score, List.dedup_eq_self.mpr hnd]

/-- Witness: for the duplicate-free query "Alice Bob" the code's score of
row1 agrees with the spec's distinct-keyword score. -/
theorem c3_score_counts_tokens_witness :
    score_row "Alice Bob".toList (keywordsOf "Alice Bob".toList) row1.search_text =
      spec_relevance_score "Alice Bob".toList row1.search_text :=
  c3_score_counts_tokens.2 "Alice Bob".toList row1.search_text (by decide)

/-! ## Result ordering (claim C4) -/

/-- Claim C4 confirmed: in every returned result list, whenever row `a`
precedes row `b`, `a`'s relevance score is at least `b`'s, and on a score tie
`a`'s import time is at least `b`'s. -/
theorem c4_score_monotone_ordering (db : List SRow) (q : Str) (limit offset : Nat) :
    ((search_data db q limit offset).results).Pairwise (fun a b =>
      score_row q (keywordsOf q) b.search_text ≤ score_row q (keywordsOf q) a.search_text ∧
      (score_row q (keywordsOf q) a.search_text = score_row q (keywordsOf q) b.search_text →
        b.import_time ≤ a.import_time)) := by
  unfold search_data
  split
  · simp
  · simp only []
    rw [List.pairwise_map]
    have hsorted : (sorted_matches db q).Pairwise score_le :=
      List.sorted_insertionSort score_le _
    have hsub : (((sorted_matches db q).drop offset).take limit).Sublist
        (sorted_matches db q) :=
      (List.take_sublist _ _).trans (List.drop_sublist _ _)
    have hps := List.Pairwise.sublist hsub hsorted
    refine List.Pairwise.imp_of_mem ?_ hps
    intro a b ha hb hab
    have hA := snd_eq_score_of_mem_sorted (hsub.subset ha)
    have hB := snd_eq_score_of_mem_sorted (hsub.subset hb)
    constructor
    · rcases hab with h | ⟨h, _⟩
      · rw [← hA, ← hB]; exact Nat.le_of_lt h
      · rw [← hA, ← hB, h]
    · intro heq
      rcases hab with h | ⟨_, ht⟩
      · rw [← hA, ← hB] at heq; omega
      · exact ht

/-! ## Pagination (claim C5) -/

/-- Page `k` of a list sliced with limit `L` and offset `k * L`; `N` pages of
size `L` cover a list of length at most `N * L`. -/
theorem flatten_pages {α : Type} (L : Nat) :
    ∀ (N : Nat) (l : List α), l.length ≤ N * L →
      ((List.range N).map (fun k => (l.drop (k * L)).take L)).flatten = l := by
  intro N
  induction N with
  | zero =>
    intro l h
    simp only [Nat.zero_mul, Nat.le_zero, List.length_eq_zero] at h
    simp [h]
  | succ n ih =>
    intro l h
    rw [List.range_succ_eq_map]
    simp only [List.map_cons, List.flatten_cons, List.map_map]
    have hmaps : ((List.range n).map ((fun k => (l.drop (k * L)).take L) ∘ Nat.succ)) =
        (List.range n).map (fun k => ((l.drop L).drop (k * L)).take L) := by
      apply List.map_congr_left
      intro k _
      simp only [Function.comp_apply, List.drop_drop]
      rw [Nat.succ_mul, Nat.add_comm]
    rw [hmaps, Nat.zero_mul, List.drop_zero, ih (l.drop L) ?_, List.take_append_drop]
    rw [List.length_drop]
    have hd : (n + 1) * L = n * L + L := by ring
    omega

/-- The list `matched_rows` is empty when the keyword list is empty (the OR condition
over no keywords matches nothing). -/
theorem matched_rows_nil_of_no_keywords {db : List SRow} {q : Str}
    (hk : (keywordsOf q).isEmpty = true) : matched_rows db q = [] := by
  rw [List.isEmpty_iff] at hk
  unfold matched_rows
  rw [List.filter_eq_nil_iff]
  intro r _
  simp [rowMatches, hk]

/-- Claim C5 confirmed: pagination slices the fully scored and sorted match
list, so pages with fixed limit `L` at offsets `0, L, 2L, …` concatenate to
the whole sorted match list, and every returned `total` equals the size of
the full match set. -/
theorem c5_pagination_complete (db : List SRow) (q : Str) (L N : Nat)
    (hN : (sorted_matches db q).length ≤ N * L) :
    ((List.range N).map (fun k => (search_data db q L (k * L)).results)).flatten =
      (sorted_matches db q).map Prod.fst ∧
    ∀ limit offset : Nat,
      (search_data db q limit offset).total = (matched_rows db q).length := by
  constructor
  · by_cases hk : (keywordsOf q).isEmpty
    · have hm : matched_rows db q = [] := matched_rows_nil_of_no_keywords hk
      have hs : sorted_matches db q = [] := by
        unfold sorted_matches sortScored
        rw [hm]
        rfl
      simp [search_data, hk, hs]
    · have hpages : (List.range N).map (fun k => (search_data db q L (k * L)).results) =
          (List.range N).map (List.map Prod.fst ∘
            (fun k => ((sorted_matches db q).drop (k * L)).take L)) := by
        apply List.map_congr_left
        intro k _
        simp [search_data, hk]
      rw [hpages, ← List.map_map, ← List.map_flatten, flatten_pages L N _ hN]
  · intro limit offset
    by_cases hk : (keywordsOf q).isEmpty
    · rw [matched_rows_nil_of_no_keywords hk]
      simp [search_data, hk]
    · simp [search_data, hk]

/-- Witness for C5 at the §8 dataset: two pages of limit 1 for the query
"Alice" concatenate to the full sorted match list. -/
theorem c5_pagination_complete_witness :
    ((List.range 2).map
      (fun k => (search_data exampleDb "Alice".toList 1 (k * 1)).results)).flatten =
      (sorted_matches exampleDb "Alice".toList).map Prod.fst :=
  (c5_pagination_complete exampleDb "Alice".toList 1 2 (by decide)).1

/-! ## Import pipeline (`process_single_file` / `insert_excel_data`, claim C1)

The store's `excel_data` table is modelled as a list of rows.  Per-row insert
failure (the storage error of `record.insert(&txn)`) is modelled by a
predicate `fails` on the record being inserted. -/

/-- One stored `excel_data` record as written by `insert_excel_data`:
owning file, sheet name, 1-based row number and the (serialized) payload. -/
structure DbRow where
  file_id : Nat
  sheet_name : Str
  row_number : Nat
  payload : Str
deriving DecidableEq, Repr

/-- Model of `delete_file_data` (lines 212-219): delete every row owned by the file. -/
def delete_file_data (db : List DbRow) (file_id : Nat) : List DbRow :=
  db.filter (fun r => r.file_id ≠ file_id)

/-- The row records built by `insert_excel_data` for one sheet (lines
335-376): row numbers are 1-based positions in the sheet. -/
def sheet_records (file_id : Nat) (sheet_name : Str) (rows : List Str) : List DbRow :=
  rows.enum.map (fun p => ⟨file_id, sheet_name, p.1 + 1, p.2⟩)

/-- The transaction body of `insert_excel_data` (lines 378-401): insert the
records one by one; the first failing insert aborts (the transaction is
dropped, i.e. rolled back). `none` = rollback, `some acc` = commit. -/
def txn_insert (fails : DbRow → Bool) : List DbRow → List DbRow → Option (List DbRow)
  | acc, [] => some acc
  | acc, r :: rs => if fails r then none else txn_insert fails (acc ++ [r]) rs

/-- Model of `insert_excel_data` (lines 327-409): open one transaction for the sheet's
records; on success the committed rows are appended to the store, on failure
the store is unchanged (rollback) and the error is propagated. -/
def insert_excel_data (fails : DbRow → Bool) (db : List DbRow) (file_id : Nat)
    (sheet_name : Str) (rows : List Str) : Bool × List DbRow :=
  match txn_insert fails db (sheet_records file_id sheet_name rows) with
  | some db2 => (true, db2)
  | none => (false, db)

/-- The per-sheet insert loop of `process_single_file` (lines 583-593):
sheets are inserted in order, each in its own transaction; the first failing
sheet aborts the loop with the store as committed so far. -/
def insert_sheets (fails : DbRow → Bool) (file_id : Nat) :
    List (Str × List Str) → List DbRow → Bool × List DbRow
  | [], db => (true, db)
  | (sheet_name, rows) :: rest, db =>
    match insert_excel_data fails db file_id sheet_name rows with
    | (true, db2) => insert_sheets fails file_id rest db2
    | (false, db2) => (false, db2)

/-- Model of `process_single_file` (lines 527-597), row-store effects for a
file whose import is not skipped: existing rows are deleted first (outside
any transaction), then each sheet is inserted in its own transaction. -/
def process_single_file (fails : DbRow → Bool) (db : List DbRow) (file_id : Nat)
    (sheets : List (Str × List Str)) : Bool × List DbRow :=
  insert_sheets fails file_id sheets (delete_file_data db file_id)

/-- The rows a run of the per-sheet loop commits: all records of the sheets
strictly before the first sheet containing a failing record, and nothing of
any later sheet. -/
def committed_records (fails : DbRow → Bool) (file_id : Nat) :
    List (Str × List Str) → List DbRow
  | [] => []
  | (sheet_name, rows) :: rest =>
    if (sheet_records file_id sheet_name rows).any fails then []
    else sheet_records file_id sheet_name rows ++ committed_records fails file_id rest

/-- Whether some row record of some sheet fails to insert. -/
def some_insert_fails (fails : DbRow → Bool) (file_id : Nat)
    (sheets : List (Str × List Str)) : Bool :=
  sheets.any (fun p => (sheet_records file_id p.1 p.2).any fails)

/-- The transaction loop either commits exactly `acc ++ rs` or rolls back. -/
theorem txn_insert_eq (fails : DbRow → Bool) :
    ∀ (rs acc : List DbRow),
      txn_insert fails acc rs = if rs.any fails then none else some (acc ++ rs) := by
  intro rs
  induction rs with
  | nil => intro acc; simp [txn_insert]
  | cons r rest ih =>
    intro acc
    rw [txn_insert]
    by_cases h : fails r
    · simp [h]
    · simp [h, ih]

example :
    process_single_file (fun r => decide (r.payload = ['b']))
      [⟨1, ['s'], 1, ['o']⟩] 1 [(['u'], [['g']]), (['v'], [['b']])] =
    (false, [⟨1, ['u'], 1, ['g']⟩]) := by decide

/-- Claim C1 is false on the code: with one prior stored row for file 1 and a
two-sheet file whose second sheet's row fails to insert, the import is
reported failed, yet the prior row is gone (the delete ran outside any
transaction) and sheet one's row is committed — a partial replace. -/
theorem c1_counterexample :
    (process_single_file (fun r => decide (r.payload = ['b']))
        [⟨1, ['s'], 1, ['o']⟩] 1 [(['u'], [['g']]), (['v'], [['b']])]).1 = false ∧
    ⟨1, ['s'], 1, ['o']⟩ ∉ (process_single_file (fun r => decide (r.payload = ['b']))
        [⟨1, ['s'], 1, ['o']⟩] 1 [(['u'], [['g']]), (['v'], [['b']])]).2 ∧
    ⟨1, ['u'], 1, ['g']⟩ ∈ (process_single_file (fun r => decide (r.payload = ['b']))
        [⟨1, ['s'], 1, ['o']⟩] 1 [(['u'], [['g']]), (['v'], [['b']])]).2 := by decide

/-- Claim C1 amended: a failing row insert in any sheet makes the file count
as failed, and each **sheet's** insert is atomic; but the delete of the
file's prior rows runs unconditionally before insertion and earlier sheets
commit in their own transactions, so after the run the store holds the other
files' rows followed by exactly the records of the sheets preceding the first
failing sheet — the file's prior rows do not survive a failed import. -/
theorem c1_per_sheet_transactions (fails : DbRow → Bool) (db : List DbRow)
    (file_id : Nat) (sheets : List (Str × List Str)) :
    process_single_file fails db file_id sheets =
      (!some_insert_fails fails file_id sheets,
       delete_file_data db file_id ++ committed_records fails file_id sheets) := by
  unfold process_single_file
  generalize delete_file_data db file_id = db0
  induction sheets generalizing db0 with
  | nil => simp [insert_sheets, some_insert_fails, committed_records]
  | cons p rest ih =>
    obtain ⟨sheet_name, rows⟩ := p
    rw [insert_sheets, insert_excel_data, txn_insert_eq]
    by_cases h : (sheet_records file_id sheet_name rows).any fails
    · simp [h, some_insert_fails, committed_records]
    · simp [h, ih, some_insert_fails, committed_records, List.append_assoc]

/-! ## Change detection (`is_file_changed`, claim C6)

`generate_file_hash` reads the file's bytes and hashes them; both the byte
content and the hash are modelled as `Str`, and hashing as an arbitrary
function of the content (determinism — same bytes, same fingerprint — is all
these claims use).  A failed read/hash is the `error` case. -/

/-- Model of `is_file_changed` (lines 189-209): compute the current hash (propagating
a hash failure), look up the stored record by path; no record ⇒ changed;
record ⇒ changed iff the stored fingerprint differs. -/
def is_file_changed (stored : Option Str) (hash_result : Except Unit Str) :
    Except Unit Bool := do
  let current ← hash_result
  match stored with
  | some stored_hash => pure (decide (stored_hash ≠ current))
  | none => pure true

/-- The caller-side decision of `batch_import_excel_files_with_options`
(lines 456-466) and `process_single_file` (lines 531-545): force ⇒ import;
otherwise import iff changed, and a failed check fails open (import). -/
def needs_update (force : Bool) (changed : Except Unit Bool) : Bool :=
  if force then true
  else match changed with
    | .ok c => c
    | .error _ => true

/-- Stored state for a single file path: the `files` record's fingerprint (if
a record exists), the file's `excel_data` rows, and the running
`ImportStats`-style counters. -/
structure FileImportState where
  stored_hash : Option Str
  rows : List DbRow
  success : Nat
  skipped : Nat
deriving DecidableEq, Repr

/-- One run of the batch importer restricted to a single discovered file with
content hash `md5 content` and parsed rows `parsed`, inserts succeeding: if
the change check demands an update the file's rows are replaced and the
record's fingerprint refreshed (`get_or_create_file_metadata`); otherwise the
file is skipped and the store untouched. -/
def import_run (md5 : Str → Str) (st : FileImportState) (content : Str)
    (parsed : List DbRow) (force : Bool) : FileImportState :=
  if needs_update force (is_file_changed st.stored_hash (.ok (md5 content))) then
    { stored_hash := some (md5 content), rows := parsed, success := st.success + 1,
      skipped := st.skipped }
  else
    { st with skipped := st.skipped + 1 }

/-- Claim C6 confirmed: no stored record ⇒ import; record ⇒ import iff the
fingerprint differs; a failed fingerprint computation fails open; and a
second run over the same bytes without force is skipped, leaving the stored
rows (hence the row count) unchanged and counting exactly one skip. -/
theorem c6_change_detection (md5 : Str → Str) :
    (∀ h : Str, is_file_changed none (.ok h) = .ok true) ∧
    (∀ stored h : Str,
        is_file_changed (some stored) (.ok h) = .ok (decide (stored ≠ h))) ∧
    needs_update false (.error ()) = true ∧
    (∀ (content : Str) (parsed : List DbRow),
        import_run md5 (import_run md5 ⟨none, [], 0, 0⟩ content parsed false)
            content parsed false =
          { stored_hash := some (md5 content), rows := parsed,
            success := 1, skipped := 1 }) := by
  refine ⟨fun h => rfl, fun stored h => rfl, rfl, ?_⟩
  intro content parsed
  simp [import_run, needs_update, is_file_changed]

/-! ## Cell type coercion (`read_excel_file` lines 271-298, claim C7)

The coercion decision is string-level logic around the `f64` parse/print pair
of the standard library; that pair is kept abstract (`parseF`, `printF`,
`fract_zero`), so the theorems hold for any parser and quantify the one fact
of Rust's `f64` display that the round-trip clause relies on: a float with
zero fractional part prints without a decimal point. -/

/-- A parsed cell value: `serde_json::Value` restricted to what the coercion
produces (`Null` is handled before the numeric branch). -/
inductive CellValue (F : Type) where
  | null
  | num (v : F)
  | str (s : Str)
deriving DecidableEq, Repr

/-- Rust `str::replace`: left-to-right, non-overlapping replacement. -/
def rustReplace (s pat repl : Str) : Str :=
  match s with
  | [] => []
  | c :: cs =>
    if pat ≠ [] ∧ pat.isPrefixOf (c :: cs) = true then
      repl ++ rustReplace ((c :: cs).drop pat.length) pat repl
    else
      c :: rustReplace cs pat repl
termination_by s.length
decreasing_by
  · rename_i h
    simp only [List.length_drop, List.length_cons]
    have : 1 ≤ pat.length := by
      cases pat with
      | nil => exact absurd rfl h.1
      | cons _ _ => simp
    omega
  · simp

/-- The "looks numeric" character guard of the coercion (line 278): every
character is an ASCII digit, `.`, `-` or `+`. -/
def numeric_chars (s : Str) : Bool :=
  s.all (fun c => c.isDigit || c == '.' || c == '-' || c == '+')

/-- The keep-as-string shortcut of line 281: length above 15, or a leading
zero on a multi-character string with no decimal point.  (On this branch the
guard has passed, so the string is all ASCII and Rust's byte length equals
the character count used here.) -/
def keep_as_string_shortcut (s : Str) : Bool :=
  decide (s.length > 15) ||
    (decide (s.length > 1) && (s.head? == some '0') && !(s.contains '.'))

/-- Cell coercion (lines 274-298): empty ⇒ null; non-numeric-looking ⇒
string; numeric-looking but shortcut ⇒ string; else parse, and accept the
number only if printing reproduces the text (or the integral-valued
`replace(".0", "")` variant does); every other case keeps the string. -/
def coerceCell {F : Type} (parseF : Str → Option F) (printF : F → Str)
    (fract_zero : F → Bool) (cell_str : Str) : CellValue F :=
  if cell_str.isEmpty then .null
  else if numeric_chars cell_str then
    if keep_as_string_shortcut cell_str then .str cell_str
    else
      match parseF cell_str with
      | some num =>
        if (printF num == cell_str) ||
            (fract_zero num && (rustReplace (printF num) ['.', '0'] [] == cell_str)) then
          .num num
        else .str cell_str
      | none => .str cell_str
  else .str cell_str

/-- On the parse branch the coercion is the parse `match`. -/
theorem coerceCell_parse_branch {F : Type} (parseF : Str → Option F) (printF : F → Str)
    (fract_zero : F → Bool) {s : Str} (h1 : s.isEmpty = false)
    (h2 : numeric_chars s = true) (h3 : keep_as_string_shortcut s = false) :
    coerceCell parseF printF fract_zero s =
      match parseF s with
      | some num =>
        if (printF num == s) ||
            (fract_zero num && (rustReplace (printF num) ['.', '0'] [] == s)) then
          CellValue.num num
        else CellValue.str s
      | none => CellValue.str s := by
  unfold coerceCell
  rw [h1, h2, h3]
  simp

/-- Replacing a pattern that starts with `.` changes nothing in a string
that contains no `.`. -/
theorem rustReplace_dot_id (repl : Str) :
    ∀ s : Str, '.' ∉ s → rustReplace s ['.', '0'] repl = s := by
  intro s
  induction s with
  | nil => intro _; simp [rustReplace]
  | cons c cs ih =>
    intro hmem
    rw [rustReplace]
    have hc : (('.' : Char) == c) = false :=
      beq_eq_false_iff_ne.mpr (fun h => hmem (by rw [h]; exact List.mem_cons_self c cs))
    have hpre : (['.', '0'] : Str).isPrefixOf (c :: cs) = false := by
      simp [List.isPrefixOf, hc]
    rw [if_neg (by simp [hpre])]
    rw [ih (fun h => hmem (List.mem_cons_of_mem c h))]

/-- Claim C7 confirmed, for any parse/print pair: "0012345" stays a string
(leading zero, no decimal point); "123.45" becomes the parsed number when
printing it reproduces the text (as Rust's shortest round-trip printing
does); any string with more than 15 digit characters stays a string; and a
parsed number that does not print back to the original text is discarded in
favour of the string, provided integral floats print without a decimal
point (true of Rust's `f64` display, which never emits `".0"`). -/
theorem c7_cell_coercion {F : Type} (parseF : Str → Option F) (printF : F → Str)
    (fract_zero : F → Bool) :
    coerceCell parseF printF fract_zero "0012345".toList = .str ("0012345".toList) ∧
    (∀ v : F, parseF ("123.45".toList) = some v → printF v = "123.45".toList →
        coerceCell parseF printF fract_zero "123.45".toList = .num v) ∧
    (∀ s : Str, s.countP Char.isDigit > 15 →
        coerceCell parseF printF fract_zero s = .str s) ∧
    (∀ (s : Str) (v : F), s.isEmpty = false → numeric_chars s = true →
        keep_as_string_shortcut s = false → parseF s = some v → printF v ≠ s →
        (fract_zero v = true → '.' ∉ printF v) →
        coerceCell parseF printF fract_zero s = .str s) := by
  refine ⟨rfl, ?_, ?_, ?_⟩
  · intro v hparse hprint
    rw [coerceCell_parse_branch parseF printF fract_zero (by decide) (by decide) (by decide),
      hparse]
    simp [hprint]
  · intro s hcount
    have hlen : s.length > 15 := lt_of_lt_of_le hcount (List.countP_le_length _)
    have hne : s.isEmpty = false := by
      cases s with
      | nil => simp at hlen
      | cons _ _ => rfl
    unfold coerceCell
    rw [hne]
    by_cases hg : numeric_chars s
    · have hsc : keep_as_string_shortcut s = true := by
        unfold keep_as_string_shortcut
        rw [decide_eq_true hlen]
        simp
      rw [hg, hsc]
      simp
    · rw [Bool.not_eq_true] at hg
      rw [hg]
      simp
  · intro s v h1 h2 h3 hparse hprint hdot
    rw [coerceCell_parse_branch parseF printF fract_zero h1 h2 h3, hparse]
    have hb1 : (printF v == s) = false := by
      rw [beq_eq_false_iff_ne]
      exact hprint
    by_cases hf : fract_zero v = true
    · have hrep : rustReplace (printF v) ['.', '0'] [] = printF v :=
        rustReplace_dot_id [] (printF v) (hdot hf)
      simp [hb1, hf, hrep]
    · rw [Bool.not_eq_true] at hf
      simp [hb1, hf]

/-- Witness for C7: a concrete parse/print pair per conjunct — identity
parse/print for "0012345", "123.45" and the 16-digit string, and a
deliberately non-round-tripping parser for the last conjunct. -/
theorem c7_cell_coercion_witness :
    coerceCell (fun s => some s) id (fun _ => false) "0012345".toList
        = .str ("0012345".toList) ∧
    coerceCell (fun s => some s) id (fun _ => false) "123.45".toList
        = .num ("123.45".toList) ∧
    coerceCell (fun s => some s) id (fun _ => false) "1234567890123456".toList
        = .str ("1234567890123456".toList) ∧
    coerceCell (fun _ : Str => some ['X']) id (fun _ => false) "123".toList
        = .str ("123".toList) :=
  ⟨(c7_cell_coercion (fun s => some s) id (fun _ => false)).1,
   (c7_cell_coercion (fun s => some s) id (fun _ => false)).2.1 _ rfl rfl,
   (c7_cell_coercion (fun s => some s) id (fun _ => false)).2.2.1 _ (by decide),
   (c7_cell_coercion (fun _ : Str => some ['X']) id (fun _ => false)).2.2.2
     ("123".toList) ['X'] (by decide) (by decide) (by decide) rfl (by decide)
     (fun h => absurd h Bool.false_ne_true)⟩

/-! ## Directory scanning (`scan_excel_files_recursive` lines 92-122 and the
root checks of `batch_import_excel_files_with_options` lines 425-432,
claim C8)

A node is a file (with the `path.extension()` result attached) or a
directory; a directory is readable or not (`fs::read_dir` failing), and its
entry list can contain entries whose retrieval failed (`entry : io::Result`,
consumed with `if let Ok(entry)`). -/

mutual

inductive FsTree where
  | file (name : Str) (ext : Option Str)
  | dir (readable : Bool) (entries : EntryList)

inductive EntryList where
  | nil
  | okEntry (t : FsTree) (rest : EntryList)
  | errEntry (rest : EntryList)

end

/-- Rust `char::to_lowercase` on extension characters (ASCII here). -/
def lowerStr (s : Str) : Str := s.map Char.toLower

mutual

/-- Model of `scan_directory` on one node: a file contributes its name when its
lowercased extension is recognized; an unreadable directory is the `?`-raised
error; a readable directory scans its entries. -/
def scan_tree (exts : List Str) : FsTree → Except Unit (List Str)
  | .file name ext =>
    .ok (match ext with
      | some e => if (lowerStr e) ∈ exts then [name] else []
      | none => [])
  | .dir readable entries =>
    if readable then scan_entries exts entries else .error ()

/-- The entry loop: `if let Ok(entry)` skips failed entries; errors from a
recursive `scan_directory` call are propagated with `?`. -/
def scan_entries (exts : List Str) : EntryList → Except Unit (List Str)
  | .nil => .ok []
  | .okEntry t rest => do
    let found ← scan_tree exts t
    let more ← scan_entries exts rest
    pure (found ++ more)
  | .errEntry rest => scan_entries exts rest

end

/-- The root checks of `batch_import_excel_files_with_options`: a missing
root (`none`) or a non-directory root fails the whole run before scanning. -/
def batch_scan (exts : List Str) : Option FsTree → Except Unit (List Str)
  | none => .error ()
  | some (.file _ _) => .error ()
  | some (.dir readable entries) => scan_tree exts (.dir readable entries)

mutual

/-- Every directory reachable in the node is readable. -/
def all_readable : FsTree → Bool
  | .file _ _ => true
  | .dir readable entries => readable && entries_all_readable entries

def entries_all_readable : EntryList → Bool
  | .nil => true
  | .okEntry t rest => all_readable t && entries_all_readable rest
  | .errEntry rest => entries_all_readable rest

end

mutual

/-- The files with a recognized (lowercased) extension, in scan order. -/
def good_files (exts : List Str) : FsTree → List Str
  | .file name ext =>
    match ext with
    | some e => if (lowerStr e) ∈ exts then [name] else []
    | none => []
  | .dir _ entries => entries_good_files exts entries

def entries_good_files (exts : List Str) : EntryList → List Str
  | .nil => []
  | .okEntry t rest => good_files exts t ++ entries_good_files exts rest
  | .errEntry rest => entries_good_files exts rest

end

mutual

/-- When every reachable directory is readable the scan succeeds and returns
exactly the recognized files; failed entries are skipped along the way. -/
theorem scan_tree_ok (exts : List Str) :
    ∀ t : FsTree, all_readable t = true → scan_tree exts t = .ok (good_files exts t)
  | .file name ext => by
    intro _
    cases ext <;> rfl
  | .dir readable entries => by
    intro h
    rw [all_readable] at h
    simp only [Bool.and_eq_true] at h
    obtain ⟨hr, he⟩ := h
    rw [scan_tree, if_pos hr, good_files]
    exact scan_entries_ok exts entries he

theorem scan_entries_ok (exts : List Str) :
    ∀ es : EntryList, entries_all_readable es = true →
      scan_entries exts es = .ok (entries_good_files exts es)
  | .nil => by intro _; rfl
  | .okEntry t rest => by
    intro h
    rw [entries_all_readable] at h
    simp only [Bool.and_eq_true] at h
    obtain ⟨ht, hrest⟩ := h
    rw [scan_entries, scan_tree_ok exts t ht, scan_entries_ok exts rest hrest,
      entries_good_files]
    rfl
  | .errEntry rest => by
    intro h
    rw [entries_all_readable] at h
    rw [scan_entries, scan_entries_ok exts rest h, entries_good_files]

end

/-- The recognized extension set, `["xlsx", "xls"]` (line 435). -/
def excel_extensions : List Str := ["xlsx".toList, "xls".toList]

/-- A root whose readable top level holds one recognized file and one
unreadable subdirectory. -/
def badSubdirRoot : FsTree :=
  .dir true (.okEntry (.file "a.xlsx".toList (some "xlsx".toList))
    (.okEntry (.dir false .nil) .nil))

/-- Claim C8 is false on the code: an unreadable **subdirectory** does not
get skipped — `scan_directory(&path, …)?` propagates the error and the whole
scan (hence the whole run) fails, even though a readable recognized file was
found; moreover nothing is logged for a skipped entry error. -/
theorem c8_counterexample :
    scan_tree excel_extensions badSubdirRoot = .error () ∧
    batch_scan excel_extensions (some badSubdirRoot) = .error () := by
  constructor <;> rfl

/-- Claim C8 amended: a missing or non-directory root fails the run; an error
obtaining a single directory entry is skipped (silently — the loop is
`if let Ok(entry)`, nothing is logged) without aborting; but a failure to
read a subdirectory aborts the entire scan; and when the root is a directory
and every reachable directory is readable, the scan returns exactly the
files whose lowercased extension is recognized, failed entries skipped. -/
theorem c8_scan_error_handling :
    batch_scan excel_extensions none = .error () ∧
    (∀ (name : Str) (ext : Option Str),
        batch_scan excel_extensions (some (.file name ext)) = .error ()) ∧
    (∀ (readable : Bool) (entries : EntryList),
        all_readable (.dir readable entries) = true →
        batch_scan excel_extensions (some (.dir readable entries)) =
          .ok (good_files excel_extensions (.dir readable entries))) ∧
    (∀ t : FsTree, all_readable t = true →
        scan_tree excel_extensions t = .ok (good_files excel_extensions t)) := by
  refine ⟨rfl, fun _ _ => rfl, ?_, scan_tree_ok excel_extensions⟩
  intro readable entries h
  exact scan_tree_ok excel_extensions _ h

/-- Witness for C8: a readable root with one failed entry, one recognized
file (upper-case extension) and one unrecognized file scans to exactly the
recognized file. -/
theorem c8_scan_error_handling_witness :
    batch_scan excel_extensions
      (some (.dir true (.errEntry (.okEntry (.file "B.XLSX".toList (some "XLSX".toList))
        (.okEntry (.file "c.txt".toList (some "txt".toList)) .nil))))) =
      .ok ["B.XLSX".toList] := by
  have h := c8_scan_error_handling.2.2.1 true
    (.errEntry (.okEntry (.file "B.XLSX".toList (some "XLSX".toList))
      (.okEntry (.file "c.txt".toList (some "txt".toList)) .nil))) (by rfl)
  rw [h]
  rfl

/-! ## Sheet-name sanitization (`sanitize_sheet_name` lines 901-920, claim C9)

Rust `String::len` and `String::truncate` are **byte**-based; `truncate`
panics when the new length is not a character boundary.  Strings are lists of
characters here, so the byte view is recovered through `Char.utf8Size`, and a
panic is the `none` outcome. -/

/-- The UTF-8 byte length backing Rust `String::len`. -/
def byteLen (s : Str) : Nat := (s.map Char.utf8Size).sum

/-- Rust `String::truncate(new_len)`: a no-op when `new_len` is at least the
byte length; otherwise keeps the first `new_len` bytes, and **panics**
(`none`) when `new_len` falls inside a character's UTF-8 encoding. -/
def truncate_bytes : Str → Nat → Option Str
  | _, 0 => some []
  | [], _ + 1 => some []
  | c :: cs, n + 1 =>
    if c.utf8Size ≤ n + 1 then
      (truncate_bytes cs (n + 1 - c.utf8Size)).map (fun t => c :: t)
    else none

/-- Model of `sanitize_sheet_name` (lines 901-920): strip the characters Excel forbids
in sheet names; if the byte length still exceeds 31, truncate to 28 bytes and
append `"..."`; an empty result falls back to `"Sheet1"`. -/
def sanitize_sheet_name (name : Str) : Option Str :=
  let sanitized := name.filter (fun c => !(['\\', '/', '?', '*', '[', ']', ':'].contains c))
  (if byteLen sanitized > 31 then
      (truncate_bytes sanitized 28).map (fun t => t ++ "...".toList)
    else some sanitized).map
    (fun s => if s.isEmpty then "Sheet1".toList else s)

example : sanitize_sheet_name "a/b:c".toList = some "abc".toList := by decide
example :
    sanitize_sheet_name (List.replicate 40 'x') =
      some (List.replicate 28 'x' ++ "...".toList) := by decide

/-- Claim C9 is wrong because the code is: sixteen three-byte CJK characters
survive the filter with byte length 48 > 31, and `truncate(28)` panics since
byte 28 is inside the tenth character's encoding — `sanitize_sheet_name` is
not total on Unicode input. -/
theorem c9_truncation_panics :
    sanitize_sheet_name (List.replicate 16 '测') = none := by decide

/-! ## Batch import statistics (`batch_import_excel_files_with_options`
lines 417-524, claim C10)

A discovered Excel file is modelled by its change-check decision (whether it
needs update) and, if dispatched, its task outcome as seen by `join_next`:
`Ok(Ok(()))`, `Ok(Err(e))` (processing failed) or `Err(e)` (the task
panicked).  Completion order within a batch is arbitrary, so the theorem
quantifies over any per-batch permutation of the dispatched outcomes. -/

/-- A task outcome as observed by the `join_next` loop (lines 505-519). -/
inductive TaskResult where
  | ok
  | taskErr
  | joinErr
deriving DecidableEq, Repr

/-- Model of `ImportStats` (models/mod.rs). -/
structure ImportStats where
  success : Nat
  failed : Nat
  total : Nat
  skipped : Nat
deriving DecidableEq, Repr

/-- The scan loop (lines 444-477): each discovered file either joins
`files_to_process` (incrementing `total`) or increments `skipped`. -/
def scan_phase (stats : ImportStats) :
    List (Bool × TaskResult) → ImportStats × List TaskResult
  | [] => (stats, [])
  | d :: rest =>
    if d.1 then
      let r := scan_phase { stats with total := stats.total + 1 } rest
      (r.1, d.2 :: r.2)
    else
      scan_phase { stats with skipped := stats.skipped + 1 } rest

/-- Rust `slice::chunks(n)` (line 491; `n = max 1 max_concurrent_files`). -/
def chunksOf {α : Type} (n : Nat) : List α → List (List α)
  | [] => []
  | x :: xs => (x :: xs.take (n - 1)) :: chunksOf n (xs.drop (n - 1))
termination_by l => l.length
decreasing_by
  simp only [List.length_drop, List.length_cons]
  omega

/-- The `join_next` loop over one batch: `Ok(Ok(()))` increments `success`,
anything else increments `failed`. -/
def fold_batch (stats : ImportStats) : List TaskResult → ImportStats
  | [] => stats
  | .ok :: rest => fold_batch { stats with success := stats.success + 1 } rest
  | .taskErr :: rest => fold_batch { stats with failed := stats.failed + 1 } rest
  | .joinErr :: rest => fold_batch { stats with failed := stats.failed + 1 } rest

/-- The outer batch loop: batches are processed strictly in order. -/
def run_batches (stats : ImportStats) : List (List TaskResult) → ImportStats
  | [] => stats
  | batch :: rest => run_batches (fold_batch stats batch) rest

/-- Whether a `join_next` result increments `success`. -/
def isOk : TaskResult → Bool
  | .ok => true
  | _ => false

/-- Closed form of the scan loop. -/
theorem scan_phase_eq :
    ∀ (ds : List (Bool × TaskResult)) (stats : ImportStats),
      scan_phase stats ds =
        ({ stats with total := stats.total + (ds.filter (fun d => d.1)).length,
                      skipped := stats.skipped + (ds.filter (fun d => !d.1)).length },
         (ds.filter (fun d => d.1)).map Prod.snd) := by
  intro ds
  induction ds with
  | nil => intro stats; simp [scan_phase]
  | cons d rest ih =>
    intro stats
    rw [scan_phase]
    by_cases h : d.1
    · simp [h, ih]
      omega
    · rw [Bool.not_eq_true] at h
      simp [h, ih]
      omega

/-- Closed form of one batch fold. -/
theorem fold_batch_eq :
    ∀ (batch : List TaskResult) (stats : ImportStats),
      fold_batch stats batch =
        { stats with success := stats.success + batch.countP isOk,
                     failed := stats.failed + batch.countP (fun t => !isOk t) } := by
  intro batch
  induction batch with
  | nil => intro stats; simp [fold_batch]
  | cons t rest ih =>
    intro stats
    cases t <;> simp [fold_batch, ih, List.countP_cons, isOk] <;> omega

/-- Closed form of the batch loop. -/
theorem run_batches_eq :
    ∀ (bs : List (List TaskResult)) (stats : ImportStats),
      run_batches stats bs =
        { stats with success := stats.success + (bs.map (fun b => b.countP isOk)).sum,
                     failed := stats.failed +
                       (bs.map (fun b => b.countP (fun t => !isOk t))).sum } := by
  intro bs
  induction bs with
  | nil => intro stats; simp [run_batches]
  | cons b rest ih =>
    intro stats
    rw [run_batches, fold_batch_eq, ih]
    simp [Nat.add_assoc]

/-- A boolean predicate and its negation count every element exactly once. -/
theorem countP_split {α : Type} (p : α → Bool) :
    ∀ l : List α, l.countP p + l.countP (fun a => !p a) = l.length := by
  intro l
  induction l with
  | nil => rfl
  | cons x xs ih =>
    by_cases h : p x <;> simp [List.countP_cons, h] <;> omega

/-- Concatenating the chunks gives back the original list. -/
theorem flatten_chunksOf {α : Type} (n : Nat) : ∀ l : List α, (chunksOf n l).flatten = l
  | [] => by rw [chunksOf]; rfl
  | x :: xs => by
    rw [chunksOf]
    simp only [List.flatten_cons]
    rw [flatten_chunksOf n (xs.drop (n - 1))]
    rw [List.cons_append, List.take_append_drop]
termination_by l => l.length
decreasing_by
  simp only [List.length_drop, List.length_cons]
  omega

/-- A permutation-invariant list statistic is stable under pointwise
permutation of a list of lists. -/
theorem forall2_perm_sum_eq {α : Type} (f : List α → Nat)
    (hf : ∀ a b : List α, a.Perm b → f a = f b) :
    ∀ {xs ys : List (List α)}, List.Forall₂ (fun a b => a.Perm b) xs ys →
      (xs.map f).sum = (ys.map f).sum := by
  intro xs ys h
  induction h with
  | nil => rfl
  | cons h1 _ ih => simp [hf _ _ h1, ih]

/-- Summing the per-batch success and failure counts over any batch list
accounts for every dispatched outcome exactly once. -/
theorem sum_countP_split :
    ∀ bs : List (List TaskResult),
      (bs.map (fun b => b.countP isOk)).sum +
        (bs.map (fun b => b.countP (fun t => !isOk t))).sum =
      (bs.map (fun b : List TaskResult => b.length)).sum := by
  intro bs
  induction bs with
  | nil => rfl
  | cons b rest ih =>
    simp only [List.map_cons, List.sum_cons]
    have := countP_split isOk b
    omega

/-- Claim C10 confirmed: for any change-check decisions, any batch size and
any completion order within each batch, the final stats satisfy
`success + failed = total`, `total` is the number of dispatched files,
`total + skipped` is the number of discovered files, and `skipped` counts
exactly the files excluded before dispatch. -/
theorem c10_stats_invariant (decisions : List (Bool × TaskResult))
    (max_concurrent_files : Nat) (completed : List (List TaskResult))
    (final : ImportStats)
    (hperm : List.Forall₂ (fun a b => a.Perm b) completed
      (chunksOf (max 1 max_concurrent_files) (scan_phase ⟨0, 0, 0, 0⟩ decisions).2))
    (hfinal : final = run_batches (scan_phase ⟨0, 0, 0, 0⟩ decisions).1 completed) :
    final.success + final.failed = final.total ∧
    final.total = ((scan_phase ⟨0, 0, 0, 0⟩ decisions).2).length ∧
    final.total + final.skipped = decisions.length ∧
    final.skipped = (decisions.filter (fun d => !d.1)).length := by
  have hlen : (completed.map (fun b : List TaskResult => b.length)).sum =
      ((scan_phase ⟨0, 0, 0, 0⟩ decisions).2).length := by
    rw [forall2_perm_sum_eq (fun b => b.length) (fun a b h => h.length_eq) hperm]
    rw [← List.length_flatten, flatten_chunksOf]
  rw [scan_phase_eq] at hlen hfinal ⊢
  rw [run_batches_eq] at hfinal
  subst hfinal
  simp only [List.length_map] at hlen ⊢
  refine ⟨?_, ?_, ?_, ?_⟩
  · have hsum := sum_countP_split completed
    simp only [Nat.zero_add]
    omega
  · simp
  · have hsplit := countP_split (fun d : Bool × TaskResult => d.1) decisions
    simp only [← List.countP_eq_length_filter]
    simp only [Nat.zero_add]
    omega
  · omega

/-- The decision list used by the C10 witness: one skipped file, one success,
one panicked task and one failed import. -/
def exampleDecisions : List (Bool × TaskResult) :=
  [(true, .ok), (false, .ok), (true, .joinErr), (true, .taskErr)]

/-- Witness for C10 at a concrete run (batch size 2, identity completion
order). -/
theorem c10_stats_invariant_witness :
    (run_batches (scan_phase ⟨0, 0, 0, 0⟩ exampleDecisions).1
        (chunksOf (max 1 2) (scan_phase ⟨0, 0, 0, 0⟩ exampleDecisions).2)).success +
      (run_batches (scan_phase ⟨0, 0, 0, 0⟩ exampleDecisions).1
        (chunksOf (max 1 2) (scan_phase ⟨0, 0, 0, 0⟩ exampleDecisions).2)).failed =
      (run_batches (scan_phase ⟨0, 0, 0, 0⟩ exampleDecisions).1
        (chunksOf (max 1 2) (scan_phase ⟨0, 0, 0, 0⟩ exampleDecisions).2)).total :=
  (c10_stats_invariant exampleDecisions 2 _ _
    (List.forall₂_same.mpr (fun x _ => List.Perm.refl x)) rfl).1

end ExcelHub
